import Mathlib

/-!
Verification development for the `pipup` dependency updater.

The Python sources under `src/pipup/` are shallowly embedded below.
Strings are modelled as `List Char` (`Str`), so that every operation is a
computable, kernel-reducible Lean function and byte-for-byte claims become
decidable equalities of character lists.  External libraries used by the
code (`packaging` versions and specifiers, `dparse` requirement lines,
`urllib.parse.urlparse`, `tomllib`) are modelled from their documented
behaviour, restricted to the input shapes this program feeds them; each
such model carries a doc comment saying so.  All definitions are total and
structurally recursive so that concrete witnesses evaluate by `decide`.
-/

/-- Python strings, modelled as lists of characters. -/
abbrev Str := List Char

/-- Embed a Lean string literal as a `Str`. -/
def str (s : String) : Str := s.data

/-- Python `str.isspace` characters relevant to `strip()`/`lstrip()`. -/
def pyIsSpace (c : Char) : Bool :=
  c = ' ' || c = '\t' || c = '\n' || c = '\r' || c = '\x0b' || c = '\x0c'

/-- Python `s.lstrip()` (no argument: strip leading whitespace). -/
def pyLStrip (s : Str) : Str := s.dropWhile pyIsSpace

/-- Python `s.rstrip()` (no argument: strip trailing whitespace). -/
def pyRStrip (s : Str) : Str := (s.reverse.dropWhile pyIsSpace).reverse

/-- Python `s.strip()` (no argument: strip whitespace on both ends). -/
def pyStrip (s : Str) : Str := pyRStrip (pyLStrip s)

/-- Python `s.lower()` (the inputs here are ASCII). -/
def pyLower (s : Str) : Str := s.map Char.toLower

/-- Worker for `splitOnStr`.  `acc` collects the current chunk reversed;
`skip` counts separator characters still to be consumed after a match.
Structural recursion on the string keeps it kernel-reducible.  This follows
Python `str.split(sep)` for a nonempty separator; the separators used in
the sources (`"pipup:"`, `"#"`, ...) have no self-overlap, so the
left-to-right scan here matches Python's. -/
def splitOnStrAux (sep : Str) : Str → Str → Nat → List Str
  | [], acc, _ => [acc.reverse]
  | _ :: rest, acc, skip + 1 => splitOnStrAux sep rest acc skip
  | c :: rest, acc, 0 =>
    if sep.isPrefixOf (c :: rest) ∧ sep ≠ [] then
      acc.reverse :: splitOnStrAux sep rest [] (sep.length - 1)
    else
      splitOnStrAux sep rest (c :: acc) 0

/-- Python `s.split(sep)` for a nonempty separator `sep`. -/
def splitOnStr (sep : Str) (s : Str) : List Str := splitOnStrAux sep s [] 0

/-- Python `sep.join(parts)`. -/
def joinSep (sep : Str) : List Str → Str
  | [] => []
  | [x] => x
  | x :: y :: rest => x ++ sep ++ joinSep sep (y :: rest)

/-- Python `sub in s` (substring containment). -/
def hasSubstr : Str → Str → Bool
  | [], sub => sub.isEmpty
  | c :: rest, sub => sub.isPrefixOf (c :: rest) || hasSubstr rest sub

/-- Split at the first occurrence of `sep`, returning the part before and
the remainder after it, or `none` when `sep` does not occur. -/
def splitFirstStr (sep s : Str) : Option (Str × Str) :=
  match splitOnStr sep s with
  | x :: y :: rest => some (x, joinSep sep (y :: rest))
  | _ => none

/-- Python `s.replace(old, new)` (all occurrences). -/
def replaceStr (s old new : Str) : Str := joinSep new (splitOnStr old s)

/-- Worker for `pyReadlines`; flushes a chunk at every newline and keeps
the newline at the end of the chunk, like Python `file.readlines()`. -/
def pyReadlinesAux : Str → Str → List Str
  | [], acc => if acc = [] then [] else [acc.reverse]
  | c :: rest, acc =>
    if c = '\n' then (acc.reverse ++ ['\n']) :: pyReadlinesAux rest []
    else pyReadlinesAux rest (c :: acc)

/-- Python `file.readlines()` over the file contents: splits after every
newline, keeping the newline characters. -/
def pyReadlines (s : Str) : List Str := pyReadlinesAux s []

/-- Drop a single trailing newline, as `str.splitlines()` does on the
single-line inputs this program feeds to the requirement-line parser. -/
def stripOneNewline (s : Str) : Str :=
  match s.reverse with
  | '\n' :: rest => rest.reverse
  | _ => s

/-- A nonempty all-digit string. -/
def isDigits (s : Str) : Bool := !s.isEmpty && s.all Char.isDigit

/-- Decimal digits to a natural number. -/
def digitsToNat (s : Str) : Nat :=
  s.foldl (fun acc c => acc * 10 + (c.toNat - '0'.toNat)) 0

/-! ## Version model

Modelled from the external `packaging.version` library, restricted to the
plain release versions this program handles: an optional leading `v`/`V`
followed by dot-separated numeric segments.  Names carrying the textual
pre-release/dev suffixes are removed beforehand by `PRE_RELEASE_PATTERN`
in `src/pipup/index.py`; other exotic PEP 440 forms (epochs, post/dev/local
segments) are treated as unparseable by this restricted model. -/

/-- A parsed version: its release segments. -/
abbrev Ver := List Nat

/-- Modelled from the external `packaging` library: `version.parse`,
restricted as described above; `none` models `InvalidVersion`. -/
def pyVersionParse (s : Str) : Option Ver :=
  let t := pyStrip s
  let t := match t with
    | 'v' :: r => r
    | 'V' :: r => r
    | r => r
  let parts := splitOnStr (str ".") t
  if parts.all isDigits then some (parts.map digitsToNat) else none

/-- Canonical string form of a version, as Python `str(Version)` renders
the release segments. -/
def strVer (v : Ver) : Str := joinSep (str ".") (v.map (Nat.toDigits 10))

/-- PEP 440 comparison key of the release segments: trailing zero
segments are insignificant (`1.0 == 1`). -/
def vkey (v : Ver) : List Nat := (v.reverse.dropWhile (· = 0)).reverse

/-- Version order, descending form: `verGe a b` means `a` is at least as
new as `b`.  After dropping trailing zeros, PEP 440 release comparison is
exactly lexicographic comparison with shorter-prefix-smaller, which is the
`List ℕ` linear order. -/
def verGe (a b : Ver) : Prop := vkey b ≤ vkey a

instance : DecidableRel verGe :=
  fun a b => inferInstanceAs (Decidable (vkey b ≤ vkey a))

instance : IsTotal Ver verGe := ⟨fun a b => le_total (vkey b) (vkey a)⟩

instance : IsTrans Ver verGe := ⟨fun _ _ _ h1 h2 => le_trans h2 h1⟩

/-- Python string comparison (code-point lexicographic), descending form,
used to model `sorted(reverse=True)` over raw `str` release names. -/
def strGe (a b : Str) : Prop := b ≤ a

instance : DecidableRel strGe :=
  fun a b => inferInstanceAs (Decidable (b ≤ a))

instance : IsTotal Str strGe := ⟨fun a b => le_total b a⟩

instance : IsTrans Str strGe := ⟨fun _ _ _ h1 h2 => le_trans h2 h1⟩

/-- Ascending Python string comparison, used for `sorted(..., key=str)`. -/
def strLe (a b : Str) : Prop := a ≤ b

instance : DecidableRel strLe :=
  fun a b => inferInstanceAs (Decidable (a ≤ b))

/-- Model of `PRE_RELEASE_PATTERN = re.compile(r'(a|b|rc|dev)[0-9]+$')`
applied with `.search`: the name ends in a nonempty digit run immediately
preceded by `a`, `b`, `rc` or `dev`.  (`(a|b|rc|dev)` ends in a letter, so
a match must place its digits at the very end of the trailing digit run.) -/
def preReleaseSearch (s : Str) : Bool :=
  let digitsRun := s.reverse.takeWhile Char.isDigit
  let rest := (s.reverse.dropWhile Char.isDigit).reverse
  !digitsRun.isEmpty &&
    ((str "a").isSuffixOf rest || (str "b").isSuffixOf rest ||
      (str "rc").isSuffixOf rest || (str "dev").isSuffixOf rest)

/-! ## Specifier model

Modelled from the external `packaging.specifiers` library
(`SpecifierSet`), restricted to the comparison operators over the plain
release versions of the version model above (`~=`, `===` and wildcard
forms are treated as unparseable). -/

/-- A specifier comparison operator. -/
inductive SpecOp where
  | lt | le | gt | ge | eq | ne
deriving DecidableEq

/-- Render of a specifier operator. -/
def specOpStr : SpecOp → Str
  | .lt => str "<"
  | .le => str "<="
  | .gt => str ">"
  | .ge => str ">="
  | .eq => str "=="
  | .ne => str "!="

/-- One specifier clause: the operator, the version text as written
(which `str(Specifier)` preserves) and its parsed form. -/
structure Specifier where
  op : SpecOp
  verStr : Str
  ver : Ver
deriving DecidableEq

/-- Render of one specifier clause, as Python `str(Specifier)`. -/
def specStr (sp : Specifier) : Str := specOpStr sp.op ++ sp.verStr

/-- Parse one specifier clause; `none` models `InvalidSpecifier`. -/
def specParseOne (s : Str) : Option Specifier :=
  let t := pyStrip s
  let opv : Option (SpecOp × Str) :=
    if (str ">=").isPrefixOf t then some (.ge, t.drop 2)
    else if (str "<=").isPrefixOf t then some (.le, t.drop 2)
    else if (str "==").isPrefixOf t then some (.eq, t.drop 2)
    else if (str "!=").isPrefixOf t then some (.ne, t.drop 2)
    else if (str ">").isPrefixOf t then some (.gt, t.drop 1)
    else if (str "<").isPrefixOf t then some (.lt, t.drop 1)
    else none
  match opv with
  | none => none
  | some (op, vtext) =>
    let vtext := pyStrip vtext
    match pyVersionParse vtext with
    | some v => some ⟨op, vtext, v⟩
    | none => none

/-- Parse a `SpecifierSet` string: comma-separated clauses, empty clauses
skipped; any invalid clause fails the whole construction. -/
def specSetParse (s : Str) : Option (List Specifier) :=
  ((splitOnStr (str ",") s).map pyStrip |>.filter (· ≠ [])).mapM specParseOne

/-- One clause applied to a parsed version, per PEP 440 padded release
comparison. -/
def specContains (sp : Specifier) (v : Ver) : Bool :=
  match sp.op with
  | .lt => decide (vkey v < vkey sp.ver)
  | .le => decide (vkey v ≤ vkey sp.ver)
  | .gt => decide (vkey sp.ver < vkey v)
  | .ge => decide (vkey sp.ver ≤ vkey v)
  | .eq => decide (vkey v = vkey sp.ver)
  | .ne => decide (vkey v ≠ vkey sp.ver)

/-- `SpecifierSet.contains(release)`: the release string parses and every
clause accepts it. -/
def specSetContains (specs : List Specifier) (release : Str) : Bool :=
  match pyVersionParse release with
  | none => false
  | some v => specs.all (fun sp => specContains sp v)

/-- `str(SpecifierSet)`: clause renders sorted as strings, comma-joined. -/
def specSetStr (specs : List Specifier) : Str :=
  joinSep (str ",") (List.insertionSort strLe (specs.map specStr))

/-! ## `src/pipup/models.py`: DependencyOptions -/

/-- The inline-directive record parsed from a trailing comment
(`DependencyOptions` in `src/pipup/models.py`). -/
structure DependencyOptions where
  specifier : List Specifier
  ignore : Bool
  use_tags : Bool
  allow_pre_releases : Bool
  raw : Option Str
deriving DecidableEq

/-- One iteration body of the `while "pipup:" in text_to_parse` loop in
`DependencyOptions.parse_options`: interpret the token following a
`pipup:` occurrence.  `none` models the `InvalidSpecifier` exception from
`SpecifierSet(...)`. -/
def applyOptionTok (st : DependencyOptions) (tok : Str) : Option DependencyOptions :=
  if (str "version:").isPrefixOf tok then
    match specSetParse (((splitOnStr (str ":") tok).drop 1).headD []) with
    | some sp => some { st with specifier := sp }
    | none => none
  else if tok = str "ignore" then some { st with ignore := true }
  else if tok = str "git:tags" then some { st with use_tags := true }
  else if tok = str "releases:pre" then some { st with allow_pre_releases := true }
  else some st

/-- The `while "pipup:" in text_to_parse` loop, recast as structural
recursion over the segments of `text.split("pipup:")`: the loop guard
holds exactly while at least two segments remain, and the loop body
re-joins the remaining segments, reads the first space-delimited token of
that re-join, and drops one segment.  (`"pipup:"` has no self-overlap, so
re-splitting the re-join yields the same segments back.) -/
def parseOptionsLoop : List Str → DependencyOptions → Option DependencyOptions
  | [], st => some st
  | [_], st => some st
  | _ :: p :: rest, st =>
    let textToParse := joinSep (str "pipup:") (p :: rest)
    let tok := (splitOnStr (str " ") textToParse).headD []
    match applyOptionTok st tok with
    | some st2 => parseOptionsLoop (p :: rest) st2
    | none => none

/-- `DependencyOptions.parse_options` (`src/pipup/models.py` lines 49-74):
defaults everything, keeps the raw comment text verbatim, and scans the
text for `pipup:`-prefixed directives.  The empty string is falsy in
Python, so it is not scanned, like `None`. -/
def DependencyOptions.parse_options (text : Option Str) : Option DependencyOptions :=
  let base : DependencyOptions := ⟨[], false, false, false, text⟩
  match text with
  | none => some base
  | some t =>
    if t = [] then some base
    else parseOptionsLoop (splitOnStr (str "pipup:") t) base

/-! ## Model of the external `dparse` requirement-line parser -/

/-- The parts of a `dparse` dependency used by `src/pipup/models.py`. -/
structure DparseDep where
  name : Str
  specs : List Specifier
  extras : List Str
  line : Str
deriving DecidableEq

/-- Characters allowed in a requirement name by this restricted model. -/
def isNameChar (c : Char) : Bool :=
  c.isAlphanum || c = '.' || c = '_' || c = '-'

/-- Parse the bracketed extras following a requirement name; returns the
extras and the rest of the line, or `none` on malformed extras. -/
def parseExtras (s : Str) : Option (List Str × Str) :=
  match s with
  | '[' :: rest =>
    match splitFirstStr (str "]") rest with
    | none => none
    | some (inside, rest2) =>
      if pyStrip inside = [] then some ([], rest2)
      else
        let items := (splitOnStr (str ",") inside).map pyStrip
        if items.all (fun it => it ≠ [] && it.all isNameChar) then some (items, rest2)
        else none
  | r => some ([], r)

/-- Modelled from the external `dparse` library (`parse` with the
`requirements_txt` file type) on a single line, restricted to the line
shapes this program produces: a name, optional `[extras]`, an optional
comma-separated specifier list, and an optional trailing `#` comment.
Lines that do not fit (blank lines, comment-only lines, option lines,
VCS/URL lines, malformed requirement syntax) yield no dependency.  The
`line` attribute keeps the whole stripped line, comment included. -/
def dparseLine (line : Str) : List DparseDep :=
  let t := pyStrip (stripOneNewline line)
  if t = [] then []
  else
    let base := pyStrip ((splitOnStr (str "#") t).headD [])
    let name := base.takeWhile isNameChar
    let rest := base.dropWhile isNameChar
    if name = [] then []
    else
      match parseExtras rest with
      | none => []
      | some (extras, rest2) =>
        let specPart := pyStrip rest2
        if specPart = [] then [⟨name, [], extras, t⟩]
        else
          match specSetParse specPart with
          | some sp => [⟨name, sp, extras, t⟩]
          | none => []

/-! ## `src/pipup/models.py`: dependency records -/

/-- A plain dependency declaration (`Dependency` in
`src/pipup/models.py`). -/
structure Dependency where
  name : Str
  version_pin : Option Str
  extras : Option (List Str)
  options : DependencyOptions
deriving DecidableEq

/-- The comment text handed to `parse_options`:
`"#".join(line.split("#")[1:]).lstrip() if "#" in line else None`. -/
def commentTextOf (line : Str) : Option Str :=
  if hasSubstr line (str "#") then
    some (pyLStrip (joinSep (str "#") ((splitOnStr (str "#") line).drop 1)))
  else none

/-- The pin extracted from dparse specs:
`f"{dependency.specs}".lstrip("=") if len(dependency.specs) > 0 else None`. -/
def pinOfSpecs (specs : List Specifier) : Option Str :=
  if specs ≠ [] then some ((specSetStr specs).dropWhile (· = '=')) else none

/-- `Dependency.parse_dependency` (`src/pipup/models.py` lines 92-103).
`none` models an exception escaping from `SpecifierSet` parsing inside
`parse_options`. -/
def Dependency.parse_dependency (dep : DparseDep) : Option Dependency :=
  match DependencyOptions.parse_options (commentTextOf dep.line) with
  | none => none
  | some opts =>
    some ⟨dep.name, pinOfSpecs dep.specs,
      if dep.extras ≠ [] then some dep.extras else none, opts⟩

/-- `Dependency.export_requirements_txt` (`src/pipup/models.py` lines
105-113).  Python truthiness: empty extras, an empty pin and an empty raw
comment are all falsy and render nothing. -/
def Dependency.export_requirements_txt (d : Dependency) : Str :=
  let t := d.name
  let t := match d.extras with
    | some ex => if ex ≠ [] then t ++ str "[" ++ joinSep (str ", ") ex ++ str "]" else t
    | none => t
  let t := match d.version_pin with
    | some p => if p ≠ [] then t ++ str "==" ++ p else t
    | none => t
  match d.options.raw with
  | some r => if r ≠ [] then t ++ str " # " ++ r else t
  | none => t

/-! ## Model of `urllib.parse.urlparse` -/

/-- The components of a parsed URL used by `GitHubDependency`. -/
structure UrlParts where
  scheme : Str
  netloc : Str
  path : Str
  fragment : Str
deriving DecidableEq

/-- Modelled from the standard-library `urllib.parse.urlparse`,
restricted to the `scheme://netloc/path#fragment` URLs this program
handles (no query strings): the fragment is everything after the first
`#`, the scheme (lowercased) is everything before `://`, the netloc runs
to the first `/` and the path is the rest. -/
def pyUrlparse (s : Str) : UrlParts :=
  let parts := splitOnStr (str "#") s
  let beforeFrag := parts.headD []
  let frag := if parts.length ≤ 1 then [] else joinSep (str "#") (parts.drop 1)
  match splitFirstStr (str "://") beforeFrag with
  | none => ⟨[], [], beforeFrag, frag⟩
  | some (sch, rest) =>
    ⟨pyLower sch, rest.takeWhile (· ≠ '/'), rest.dropWhile (· ≠ '/'), frag⟩

/-! ## `src/pipup/models.py`: GitHubDependency -/

/-- A VCS-style dependency (`GitHubDependency` in `src/pipup/models.py`),
inheriting the plain dependency fields. -/
structure GitHubDependency extends Dependency where
  git_schema : Str
  github_org : Str
  github_repo : Str
deriving DecidableEq

/-- `GitHubDependency.parse_line` (`src/pipup/models.py` lines 191-236).
`none` covers both the explicit `return None` paths and an exception from
specifier parsing (no claim depends on telling those apart). -/
def GitHubDependency.parse_line (line : Str) : Option GitHubDependency :=
  let o := pyUrlparse ((splitOnStr (str " ") line).headD [])
  let current_scheme := o.scheme
  let current_url :=
    if hasSubstr o.path (str "@") then (splitOnStr (str "@") o.path).headD [] else o.path
  let current_tag :=
    if hasSubstr o.path (str "@") then some ((splitOnStr (str "@") o.path).getD 1 []) else none
  if ¬ (str ".git").isSuffixOf current_url then none
  else
    let path_parts := splitOnStr (str "/") (current_url.dropWhile (· = '/'))
    if path_parts.length ≠ 2 then none
    else
      let extra :=
        if hasSubstr line (str " ") then joinSep (str " ") ((splitOnStr (str " ") line).drop 1)
        else []
      let dep_line := replaceStr o.fragment (str "egg=") []
      let dep_line := match current_tag with
        | some t => dep_line ++ str "==" ++ t
        | none => dep_line
      let dep_line := if extra ≠ [] then dep_line ++ str " " ++ extra else dep_line
      match dparseLine dep_line with
      | [] => none
      | dep :: _ =>
        match DependencyOptions.parse_options (commentTextOf dep.line) with
        | none => none
        | some opts =>
          some ⟨⟨dep.name, pinOfSpecs dep.specs,
              if dep.extras ≠ [] then some dep.extras else none, opts⟩,
            current_scheme,
            path_parts.headD [],
            joinSep (str ".") ((splitOnStr (str ".") (path_parts.getD 1 [])).dropLast)⟩

/-- `GitHubDependency.render_contents` (`src/pipup/models.py` lines
238-246). -/
def GitHubDependency.render_contents (g : GitHubDependency) : Str :=
  let t := g.git_schema ++ str "://" ++ (if g.git_schema = str "git+ssh" then str "git@" else [])
  let t := t ++ str "github.com/" ++ g.github_org ++ str "/" ++ g.github_repo ++ str ".git"
  let t := match g.version_pin with
    | some p => if p ≠ [] then t ++ str "@" ++ p else t
    | none => t
  let t := t ++ str "#egg=" ++ g.name
  match g.options.raw with
  | some r => if r ≠ [] then t ++ str " # " ++ r else t
  | none => t

/-! ## `src/pipup/models.py`: Requirements -/

/-- One entry of a requirements file: the tagged union that
`Requirements.dependencies` holds (`RawDependency`, `Dependency` or
`GitHubDependency`). -/
inductive Entry where
  | raw (line : Str)
  | plain (d : Dependency)
  | github (g : GitHubDependency)
deriving DecidableEq

/-- Per-line classification inside `Requirements.parse_requirements_txt`
(`src/pipup/models.py` lines 138-150): try dparse, then the GitHub URL
shape, then fall back to a `RawDependency` of the stripped line. -/
def parseReqLine (line : Str) : Option Entry :=
  match dparseLine line with
  | dep :: _ => (Dependency.parse_dependency dep).map Entry.plain
  | [] =>
    let s := pyStrip line
    if ((str "git+https://github.com/").isPrefixOf s
          || (str "git+ssh://git@github.com/").isPrefixOf s)
        && hasSubstr s (str "#egg=") then
      match GitHubDependency.parse_line s with
      | some dep => some (.github dep)
      | none => some (.raw s)
    else some (.raw s)

/-- `Requirements.parse_requirements_txt` (`src/pipup/models.py` lines
130-151), applied to the file contents; the path bookkeeping is elided. -/
def Requirements.parse_requirements_txt (content : Str) : Option (List Entry) :=
  (pyReadlines content).mapM parseReqLine

/-- The export of one entry: `RawDependency.export_requirements_txt`
returns the stored line; `GitHubDependency` does not override
`export_requirements_txt`, so it inherits the plain renderer. -/
def entryExport : Entry → Str
  | .raw l => l
  | .plain d => d.export_requirements_txt
  | .github g => g.toDependency.export_requirements_txt

/-- `Requirements.export_requirements_txt` (`src/pipup/models.py` lines
174-181): newline-join of the per-entry exports plus a trailing empty
string. -/
def Requirements.export_requirements_txt (deps : List Entry) : Str :=
  joinSep (str "\n") (deps.map entryExport ++ [[]])

/-- The update record (`Update` in `src/pipup/models.py`). -/
structure Update where
  name : Str
  previous_pin : Option Str
  new_pin : Option Str
  pin_changed : Bool
deriving DecidableEq

/-! ## `src/pipup/models.py`: LockFile

`_get_packages_from_contents` parses the contents with `tomllib.loads`
(which raises on invalid TOML) and then returns the empty dict, so only
TOML validity is observable; exceptions are modelled with `PyResult`. -/

/-- Result of a Python call that may raise. -/
inductive PyResult (α : Type) where
  | ok (a : α)
  | raised
deriving DecidableEq

/-- Whether one line fits the restricted line-based TOML shapes: blank,
comment, a bracketed header/array line, or `key = value` with a nonempty
key and value. -/
def tomlLineOk (l : Str) : Bool :=
  let t := pyStrip l
  t = [] || t.headD ' ' = '#' || t.headD ' ' = '[' || t.headD ' ' = ']' ||
    (match splitFirstStr (str "=") t with
     | some (k, v) => pyStrip k ≠ [] && pyStrip v ≠ []
     | none => false)

/-- Modelled from the standard-library `tomllib.loads`, restricted to
validity only (the caller discards the parsed data): every line must fit
`tomlLineOk`; `raised` models `TOMLDecodeError`. -/
def tomllibLoads (s : Str) : PyResult Unit :=
  if (splitOnStr (str "\n") s).all tomlLineOk then .ok () else .raised

/-- The lock-file change object (`LockFile` in `src/pipup/models.py`). -/
structure LockFile where
  file_path : Str
  current_contents : Str
  new_contents : Str
deriving DecidableEq

/-- `LockFile._get_packages_from_contents` (`src/pipup/models.py` lines
255-258): parse the contents as TOML, print the data, and return the
empty dict. -/
def LockFile.get_packages_from_contents (contents : Str) : PyResult (List (Str × Str)) :=
  match tomllibLoads contents with
  | .ok _ => .ok []
  | .raised => .raised

/-- The change computation over two package dicts, from the body of
`LockFile._calculate_changes` (`src/pipup/models.py` lines 265-271): for
every key of either dict, record the pair of versions when they differ. -/
def calcChangesFrom (previous_packages new_packages : List (Str × Str)) :
    List (Str × (Option Str × Option Str)) :=
  ((previous_packages.map Prod.fst ++ new_packages.map Prod.fst).dedup).filterMap
    (fun k =>
      let previous_version := previous_packages.lookup k
      let new_version := new_packages.lookup k
      if previous_version ≠ new_version then some (k, (previous_version, new_version))
      else none)

/-- `LockFile._calculate_changes` (`src/pipup/models.py` lines 260-271). -/
def LockFile.calculate_changes (lf : LockFile) :
    PyResult (List (Str × (Option Str × Option Str))) :=
  match LockFile.get_packages_from_contents lf.current_contents with
  | .raised => .raised
  | .ok previous_packages =>
    match LockFile.get_packages_from_contents lf.new_contents with
    | .raised => .raised
    | .ok new_packages => .ok (calcChangesFrom previous_packages new_packages)

/-- `LockFile.update_count` (`src/pipup/models.py` lines 273-274). -/
def LockFile.update_count (lf : LockFile) : PyResult Nat :=
  match lf.calculate_changes with
  | .ok changes => .ok changes.length
  | .raised => .raised

/-- `LockFile.update_detail` (`src/pipup/models.py` lines 279-288).  The
source iterates the keys of the changes dict and unpacks each key string
into `package, (old, new)`, which raises on any nonempty dict; since the
dict is always empty that branch is unreachable in a successful run. -/
def LockFile.update_detail (lf : LockFile) : PyResult Str :=
  match lf.calculate_changes with
  | .ok changes => if changes = [] then .ok [] else .raised
  | .raised => .raised

/-! ## `src/pipup/index.py` -/

/-- `Index._filter_releases` (`src/pipup/index.py` lines 47-59): drop
names matching the pre-release pattern, parse the rest (unparseable names
are skipped with a warning), sort descending — Python `sorted(...,
reverse=True)` is stable, which stable insertion sort models — and render
each version back to canonical string form. -/
def Index.filter_releases (releases : List Str) : List Str :=
  let filtered_releases :=
    releases.filterMap (fun r => if preReleaseSearch r then none else pyVersionParse r)
  (List.insertionSort verGe filtered_releases).map strVer

/-- One mirror's HTTP response for the package lookup: the status code
and the `"releases"` map of the JSON body (release name to the yanked
flags of its distribution artifacts). -/
structure MirrorResponse where
  status : Nat
  releases : List (Str × List Bool)
deriving DecidableEq

/-- Errors out of `Index.get_releases_for_package`: a non-success HTTP
status raised by `raise_for_status`, or the `ValueError` when no mirror
had the package. -/
inductive IndexError where
  | httpError (status : Nat)
  | lookupFailure
deriving DecidableEq

/-- Result of an index lookup that may raise (`DecidableEq`-friendly
counterpart of `Except IndexError`). -/
inductive IndexResult (α : Type) where
  | ok (a : α)
  | error (e : IndexError)
deriving DecidableEq

/-- The release names that survive the yank filter of
`get_releases_for_package`: a release is kept iff **no** associated
artifact is yanked (`if not any([r["yanked"] ...])`). -/
def yankFilteredNames (pkg : List (Str × List Bool)) : List Str :=
  (pkg.filter (fun p => !(p.2.any id))).map Prod.fst

/-- The mirror loop of `Index.get_releases_for_package`
(`src/pipup/index.py` lines 62-69): skip a mirror on 404, raise on any
other non-success status (`raise_for_status` raises for status ≥ 400),
otherwise take this mirror's body and stop. -/
def Index.mirror_loop : List MirrorResponse → IndexResult (Option (List (Str × List Bool)))
  | [] => .ok none
  | r :: rest =>
    if r.status = 404 then Index.mirror_loop rest
    else if 400 ≤ r.status then .error (.httpError r.status)
    else .ok (some r.releases)

/-- `Index.get_releases_for_package` (`src/pipup/index.py` lines 61-77),
over the per-mirror responses: run the mirror loop, raise `ValueError`
(modelled as `lookupFailure`) if no mirror had the package, then apply
the yank filter and `_filter_releases`. -/
def Index.get_releases_for_package (responses : List MirrorResponse) :
    IndexResult (List Str) :=
  match Index.mirror_loop responses with
  | .error e => .error e
  | .ok none => .error .lookupFailure
  | .ok (some pkg) => .ok (Index.filter_releases (yankFilteredNames pkg))

/-- `GitIndex._filter_releases` (`src/pipup/index.py` lines 85-101).  The
`raw_version` flag is constant over each call, so the union-typed
accumulator of the source is modelled by branching on it: with
`raw_version` the surviving raw name strings themselves are sorted (as
Python strings, i.e. lexicographically), otherwise parsed versions are
sorted and re-rendered exactly as in `Index._filter_releases`. -/
def GitIndex.filter_releases (releases : List Str) (raw_version : Bool) : List Str :=
  if raw_version then
    List.insertionSort strGe
      (releases.filter (fun r => !preReleaseSearch r && (pyVersionParse r).isSome))
  else
    (List.insertionSort verGe
      (releases.filterMap (fun r => if preReleaseSearch r then none else pyVersionParse r))).map
      strVer

/-- `GitIndex.get_releases_for_repo` (`src/pipup/index.py` lines
124-133), over the tag names of the release objects the API returned:
the HTTP layer is elided and the filter is applied with raw names kept. -/
def GitIndex.get_releases_for_repo (tag_names : List Str) : List Str :=
  GitIndex.filter_releases tag_names true

/-- `GitIndex.get_tags_for_repo` (`src/pipup/index.py` lines 113-122),
over the tag names: the filter is applied with parsed versions. -/
def GitIndex.get_tags_for_repo (tag_names : List Str) : List Str :=
  GitIndex.filter_releases tag_names false

/-! ## `src/pipup/updater.py` -/

/-- The candidate releases obtained for a dependency
(`src/pipup/updater.py` lines 69-75): none when the inline config says
ignore or the name is itself a URL, otherwise the index lookup. -/
def depCandidates (index : Str → List Str) (d : Dependency) : List Str :=
  if d.options.ignore then []
  else if hasSubstr d.name (str "://") then []
  else index d.name

/-- The candidate list after the directive specifier filter
(`src/pipup/updater.py` lines 77-82): a nonempty specifier (truthy
`SpecifierSet`) keeps only the releases it contains, preserving order. -/
def depReleases (index : Str → List Str) (d : Dependency) : List Str :=
  let releases := depCandidates index d
  if d.options.specifier ≠ [] then
    releases.filter (specSetContains d.options.specifier)
  else releases

/-- The `Update` record built for a dependency (`src/pipup/updater.py`
lines 90-101). -/
def depUpdate (index : Str → List Str) (d : Dependency) : Update :=
  { name := d.name
    previous_pin := d.version_pin
    new_pin :=
      match depReleases index d with
      | [] => d.version_pin
      | r :: _ => some r
    pin_changed :=
      match depReleases index d with
      | [] => false
      | r :: _ => decide (some r ≠ d.version_pin) }

/-- The dependency re-built for the export (`src/pipup/updater.py` lines
103-107): unchanged when no release survived, otherwise a fresh plain
`Dependency` with the new pin. -/
def updatedDependency (index : Str → List Str) (d : Dependency) : Dependency :=
  match depReleases index d with
  | [] => d
  | r :: _ => ⟨d.name, some r, d.extras, d.options⟩

/-- The per-entry body of `Updater.update_requirements`
(`src/pipup/updater.py` lines 61-107): raw entries pass through with no
update record; any other entry — a `GitHubDependency` is an instance of
`Dependency`, so it takes the same path — produces an `Update` and, when
a release was selected, is replaced by a fresh plain `Dependency`
(constructed with the `Dependency` class, so the GitHub-specific fields
are not carried over). -/
def Updater.updateEntry (index : Str → List Str) : Entry → Option Update × Entry
  | .raw l => (none, .raw l)
  | .plain d => (some (depUpdate index d), .plain (updatedDependency index d))
  | .github g =>
    (some (depUpdate index g.toDependency),
      match depReleases index g.toDependency with
      | [] => .github g
      | r :: _ => .plain ⟨g.name, some r, g.extras, g.options⟩)

/-! ## `src/pipup/git.py` and `src/pipup/cli.py`: the check gate -/

/-- Lookup in a Python dict built by comprehension from these items:
a later item with the same key overrides an earlier one. -/
def pyDictGet (items : List (Str × Str)) (k : Str) : Option Str :=
  items.reverse.lookup k

/-- The lowercased-key actions dict built inside `wait_for_workflows`. -/
def loweredActions (actions : List (Str × Str)) : List (Str × Str) :=
  actions.map (fun kv => (pyLower kv.1, kv.2))

/-- `Git.wait_for_workflows` (`src/pipup/git.py` lines 244-275) on one
snapshot of `get_pull_request_actions`: `none` models "not all required
workflows have concluded yet, keep polling"; otherwise the result is the
`happy_bunny` flag computed by the loop over the required workflows. -/
def Git.wait_for_workflows (required_workflows : List Str)
    (pull_request_actions : List (Str × Str)) : Option Bool :=
  let required := required_workflows.map pyLower
  let actions := loweredActions pull_request_actions
  if required.all (fun w => (pyDictGet actions w).isSome) then
    some (required.foldl
      (fun happy_bunny w =>
        if pyDictGet actions w ≠ some (str "success") then false else happy_bunny)
      true)
  else none

/-- The remote mutation calls the merge phase can issue. -/
inductive GitCall where
  | mergePullRequest
  | createCommitComment (body : Str)
  | deleteBranch
deriving DecidableEq

/-- The failure comment body from `src/pipup/cli.py` lines 126-129. -/
def mergeWorkflowComment (workflows : List Str) : Str :=
  str "Expected workflow (" ++ joinSep (str ", ") workflows ++ str ") failed"

/-- The tail of `_merge` (`src/pipup/cli.py` lines 118-133) after
`wait_for_workflows` returned `wait_result`: on success issue the merge
call and report `true`; otherwise attempt the commit comment — a failure
to post it (`comment_post_fails`) is logged and swallowed, so it changes
nothing observable here — then delete the branch and report `false`. -/
def mergeAfterChecks (workflows : List Str) (wait_result : Bool)
    (comment_post_fails : Bool) : List GitCall × Bool :=
  if wait_result then ([.mergePullRequest], true)
  else ([.createCommitComment (mergeWorkflowComment workflows), .deleteBranch], false)

/-! ## Helper lemmas -/

/-- In an association list with pairwise-distinct keys, a key determines
its value. -/
theorem assoc_key_unique {α β : Type} {l : List (α × β)} {a : α} {b c : β}
    (hnd : (l.map Prod.fst).Nodup) (h1 : (a, b) ∈ l) (h2 : (a, c) ∈ l) : b = c := by
  induction l with
  | nil => cases h1
  | cons hd tl ih =>
    rw [List.map_cons, List.nodup_cons] at hnd
    rcases List.mem_cons.mp h1 with h1 | h1 <;> rcases List.mem_cons.mp h2 with h2 | h2
    · rw [← h1] at h2; exact (Prod.mk.injEq _ _ _ _ ▸ congrArg id h2).2.symm ▸ rfl
    · exact absurd (List.mem_map.mpr ⟨(a, c), h2, by rw [← h1]⟩) hnd.1
    · exact absurd (List.mem_map.mpr ⟨(a, b), h1, by rw [← h2]⟩) hnd.1
    · exact ih hnd.2 h1 h2

/-! ## Claims -/

/-- Claim C1: for every dependency entry resolved by the update resolver,
the new pin is the first element of the specifier-filtered candidate list
when that list is nonempty and the previous pin otherwise, and
`pin_changed` holds iff the filtered list is nonempty and its first
element differs from the previous pin; in particular with candidates
`["2.0.0","1.9.0","1.8.0"]` and no constraint the selected pin is
`"2.0.0"`, and with constraint `>=1.0,<2.0` it is `"1.9.0"`. -/
theorem c1_resolver_selection :
    (∀ (index : Str → List Str) (d : Dependency),
      (depUpdate index d).new_pin = ((depReleases index d).head?).or d.version_pin
      ∧ (depUpdate index d).previous_pin = d.version_pin
      ∧ ((depUpdate index d).pin_changed = true ↔
          depReleases index d ≠ [] ∧ (depReleases index d).head? ≠ d.version_pin))
    ∧ (depUpdate (fun _ => [str "2.0.0", str "1.9.0", str "1.8.0"])
        ⟨str "widget", some (str "1.8.0"), none, ⟨[], false, false, false, none⟩⟩).new_pin
        = some (str "2.0.0")
    ∧ (depUpdate (fun _ => [str "2.0.0", str "1.9.0", str "1.8.0"])
        ⟨str "widget", some (str "1.8.0"), none, ⟨[], false, false, false, none⟩⟩).pin_changed
        = true
    ∧ (specSetParse (str ">=1.0,<2.0")).isSome = true
    ∧ (depUpdate (fun _ => [str "2.0.0", str "1.9.0", str "1.8.0"])
        ⟨str "widget", some (str "1.8.0"), none,
          ⟨(specSetParse (str ">=1.0,<2.0")).getD [], false, false, false, none⟩⟩).new_pin
        = some (str "1.9.0") := by
  refine ⟨fun index d => ?_, by decide, by decide, by decide, by decide⟩
  unfold depUpdate
  cases h : depReleases index d with
  | nil => simp [h]
  | cons r rs => simp [h]

/-- Claim C3, counterexample: the comment text
`"pipup: version:<2.0 ignore"` has a space after `pipup:`, so the token
the scanner reads is empty and no directive is recognised: the ignore
flag stays `false` and the specifier stays empty, contrary to the claimed
`ignore = true` with constraint `<2.0`. -/
theorem c3_counterexample :
    DependencyOptions.parse_options (some (str "pipup: version:<2.0 ignore"))
      = some ⟨[], false, false, false, some (str "pipup: version:<2.0 ignore")⟩
    ∧ (DependencyOptions.parse_options
        (some (str "pipup: version:<2.0 ignore"))).map DependencyOptions.ignore
      ≠ some true
    ∧ (DependencyOptions.parse_options
        (some (str "pipup: version:<2.0 ignore"))).map DependencyOptions.specifier
      ≠ some ((specSetParse (str "<2.0")).getD []) := by
  decide

/-- Claim C3, amended: the directive tokens must each follow a `pipup:`
occurrence directly, so the comment `"pipup:version:<2.0 pipup:ignore"`
produces a `DependencyOptions` whose ignore flag is true and whose
version constraint is that of `<2.0`, and a dependency carrying those
options is resolved with its pin unchanged, with no query issued to the
release source (the resolution does not depend on the index at all). -/
theorem c3_directive_amended (name : Str) (pin : Option Str) (extras : Option (List Str))
    (opts : DependencyOptions)
    (hopts : DependencyOptions.parse_options
      (some (str "pipup:version:<2.0 pipup:ignore")) = some opts)
    (index index2 : Str → List Str) :
    opts.ignore = true
    ∧ (∃ sp, specSetParse (str "<2.0") = some sp ∧ opts.specifier = sp)
    ∧ depCandidates index ⟨name, pin, extras, opts⟩ = []
    ∧ depUpdate index ⟨name, pin, extras, opts⟩ = depUpdate index2 ⟨name, pin, extras, opts⟩
    ∧ (depUpdate index ⟨name, pin, extras, opts⟩).new_pin = pin
    ∧ (depUpdate index ⟨name, pin, extras, opts⟩).pin_changed = false
    ∧ updatedDependency index ⟨name, pin, extras, opts⟩ = ⟨name, pin, extras, opts⟩ := by
  have hval : DependencyOptions.parse_options
      (some (str "pipup:version:<2.0 pipup:ignore"))
      = some ⟨[⟨.lt, str "2.0", [2, 0]⟩], true, false, false,
          some (str "pipup:version:<2.0 pipup:ignore")⟩ := by decide
  rw [hval] at hopts
  cases hopts
  refine ⟨rfl, ⟨[⟨.lt, str "2.0", [2, 0]⟩], by decide, rfl⟩, ?_, ?_, ?_, ?_, ?_⟩
  · simp [depCandidates]
  · simp [depUpdate, depReleases, depCandidates]
  · simp [depUpdate, depReleases, depCandidates]
  · simp [depUpdate, depReleases, depCandidates]
  · simp [updatedDependency, depReleases, depCandidates]

/-- Claim C3, witness for the amended theorem at a concrete dependency. -/
theorem c3_directive_amended_witness :
    ∃ opts, DependencyOptions.parse_options
        (some (str "pipup:version:<2.0 pipup:ignore")) = some opts
      ∧ opts.ignore = true
      ∧ (depUpdate (fun _ => [str "9.9.9"])
          ⟨str "widget", some (str "1.0.0"), none, opts⟩).new_pin = some (str "1.0.0")
      ∧ (depUpdate (fun _ => [str "9.9.9"])
          ⟨str "widget", some (str "1.0.0"), none, opts⟩).pin_changed = false := by
  refine ⟨⟨[⟨.lt, str "2.0", [2, 0]⟩], true, false, false,
      some (str "pipup:version:<2.0 pipup:ignore")⟩, by decide, ?_, ?_, ?_⟩
  · exact (c3_directive_amended (str "widget") (some (str "1.0.0")) none
      ⟨[⟨.lt, str "2.0", [2, 0]⟩], true, false, false,
        some (str "pipup:version:<2.0 pipup:ignore")⟩ (by decide)
      (fun _ => [str "9.9.9"]) (fun _ => [str "9.9.9"])).1
  · exact (c3_directive_amended (str "widget") (some (str "1.0.0")) none
      ⟨[⟨.lt, str "2.0", [2, 0]⟩], true, false, false,
        some (str "pipup:version:<2.0 pipup:ignore")⟩ (by decide)
      (fun _ => [str "9.9.9"]) (fun _ => [str "9.9.9"])).2.2.2.2.1
  · exact (c3_directive_amended (str "widget") (some (str "1.0.0")) none
      ⟨[⟨.lt, str "2.0", [2, 0]⟩], true, false, false,
        some (str "pipup:version:<2.0 pipup:ignore")⟩ (by decide)
      (fun _ => [str "9.9.9"]) (fun _ => [str "9.9.9"])).2.2.2.2.2.1

/-- Claim C5, counterexample: when a new pin is selected for a SourceRef
entry, the updater rebuilds it with the `Dependency` class, so the
transport scheme, organization and repository are dropped and the entry
is no longer the original with only the pin replaced. -/
theorem c5_counterexample :
    (Updater.updateEntry (fun _ => [str "2.0.0"])
        (.github ⟨⟨str "widget", some (str "v1.2.0"), none, ⟨[], false, false, false, none⟩⟩,
          str "git+https", str "acme", str "widget"⟩)).2
      = .plain ⟨str "widget", some (str "2.0.0"), none, ⟨[], false, false, false, none⟩⟩
    ∧ (Updater.updateEntry (fun _ => [str "2.0.0"])
        (.github ⟨⟨str "widget", some (str "v1.2.0"), none, ⟨[], false, false, false, none⟩⟩,
          str "git+https", str "acme", str "widget"⟩)).2
      ≠ .github ⟨⟨str "widget", some (str "2.0.0"), none, ⟨[], false, false, false, none⟩⟩,
          str "git+https", str "acme", str "widget"⟩ := by
  decide

/-- Claim C5, amended: when the resolver selects a new pin it builds a
fresh plain `Dependency` from the original's name, extras and directive
set with only the pin replaced; for a Plain entry this perturbs nothing
but the pin, while for a SourceRef entry the transport scheme,
organization and repository are dropped and the entry becomes plain. -/
theorem c5_frame_amended (index : Str → List Str) :
    (∀ (d : Dependency) (r : Str) (rs : List Str), depReleases index d = r :: rs →
      Updater.updateEntry index (.plain d)
        = (some (depUpdate index d), .plain ⟨d.name, some r, d.extras, d.options⟩))
    ∧ (∀ (g : GitHubDependency) (r : Str) (rs : List Str),
        depReleases index g.toDependency = r :: rs →
        Updater.updateEntry index (.github g)
          = (some (depUpdate index g.toDependency),
              .plain ⟨g.name, some r, g.extras, g.options⟩)) := by
  constructor
  · intro d r rs h
    simp [Updater.updateEntry, updatedDependency, h]
  · intro g r rs h
    simp [Updater.updateEntry, h]

/-- Claim C5, witness for the amended theorem at concrete entries. -/
theorem c5_frame_amended_witness :
    Updater.updateEntry (fun _ => [str "2.0.0"])
        (.plain ⟨str "widget", some (str "1.0.0"), none, ⟨[], false, false, false, none⟩⟩)
      = (some (depUpdate (fun _ => [str "2.0.0"])
            ⟨str "widget", some (str "1.0.0"), none, ⟨[], false, false, false, none⟩⟩),
          .plain ⟨str "widget", some (str "2.0.0"), none, ⟨[], false, false, false, none⟩⟩)
    ∧ Updater.updateEntry (fun _ => [str "2.0.0"])
        (.github ⟨⟨str "widget", some (str "v1.0"), none, ⟨[], false, false, false, none⟩⟩,
          str "git+ssh", str "acme", str "widget"⟩)
      = (some (depUpdate (fun _ => [str "2.0.0"])
            ⟨str "widget", some (str "v1.0"), none, ⟨[], false, false, false, none⟩⟩),
          .plain ⟨str "widget", some (str "2.0.0"), none, ⟨[], false, false, false, none⟩⟩) :=
  ⟨(c5_frame_amended (fun _ => [str "2.0.0"])).1
      ⟨str "widget", some (str "1.0.0"), none, ⟨[], false, false, false, none⟩⟩
      (str "2.0.0") [] (by decide),
   (c5_frame_amended (fun _ => [str "2.0.0"])).2
      ⟨⟨str "widget", some (str "v1.0"), none, ⟨[], false, false, false, none⟩⟩,
        str "git+ssh", str "acme", str "widget"⟩
      (str "2.0.0") [] (by decide)⟩

/-- Claim C2, counterexample: the lookup keeps a release only when **no**
artifact is yanked (`if not any(...)`), so a release with one yanked and
one non-yanked artifact — for which "every artifact is yanked" is false —
is discarded from the candidate list, contrary to the claim. -/
theorem c2_counterexample :
    Index.get_releases_for_package [⟨200, [(str "1.0.0", [true, false])]⟩] = .ok []
    ∧ ([true, false].all id) = false
    ∧ (str "1.0.0") ∉ yankFilteredNames [(str "1.0.0", [true, false])] := by
  decide

/-- Claim C2, amended: the lookup discards a release exactly when at
least one of its distribution artifacts is yanked; a release all of whose
artifacts are non-yanked survives the yank filter, and a discarded
release's name is never passed on to version selection (the candidate
list is computed from the surviving names only). -/
theorem c2_yank_filter_amended (pkg : List (Str × List Bool)) (name : Str)
    (flags : List Bool) (hnd : (pkg.map Prod.fst).Nodup) (hmem : (name, flags) ∈ pkg) :
    (name ∈ yankFilteredNames pkg ↔ flags.any id = false)
    ∧ (∀ (st : Nat) (rest : List MirrorResponse), st ≠ 404 → st < 400 →
        Index.get_releases_for_package (⟨st, pkg⟩ :: rest)
          = .ok (Index.filter_releases (yankFilteredNames pkg))) := by
  constructor
  · constructor
    · intro h
      obtain ⟨pair, hpair, hfst⟩ := List.mem_map.mp h
      have hp := List.mem_filter.mp hpair
      have hflags : pair.2 = flags := by
        have : (name, pair.2) ∈ pkg := by
          have := hp.1
          rwa [show pair = (name, pair.2) from Prod.ext hfst rfl] at this
        exact assoc_key_unique hnd this hmem
      have := hp.2
      rw [hflags] at this
      simpa using this
    · intro h
      exact List.mem_map.mpr ⟨(name, flags),
        List.mem_filter.mpr ⟨hmem, by simp [h]⟩, rfl⟩
  · intro st rest hne hlt
    unfold Index.get_releases_for_package Index.mirror_loop
    simp [hne, Nat.not_le.mpr hlt]

/-- Claim C2, witness for the amended theorem at a concrete package. -/
theorem c2_yank_filter_amended_witness :
    (str "1.0.0") ∈ yankFilteredNames [(str "1.0.0", [false, false])]
    ∧ Index.get_releases_for_package [⟨200, [(str "1.0.0", [false, false])]⟩]
        = .ok (Index.filter_releases (yankFilteredNames [(str "1.0.0", [false, false])])) :=
  ⟨(c2_yank_filter_amended [(str "1.0.0", [false, false])] (str "1.0.0") [false, false]
      (by decide) (by decide)).1.mpr (by decide),
   (c2_yank_filter_amended [(str "1.0.0", [false, false])] (str "1.0.0") [false, false]
      (by decide) (by decide)).2 200 [] (by decide) (by decide)⟩

/-- Claim C6, counterexample: the releases accessor keeps raw name
strings and sorts them as Python strings, i.e. lexicographically, so for
tags `["9.0.0","10.0.0"]` it returns `"9.0.0"` first even though
`10.0.0` is the newer version by standard version precedence. -/
theorem c6_counterexample :
    GitIndex.get_releases_for_repo [str "9.0.0", str "10.0.0"]
      = [str "9.0.0", str "10.0.0"]
    ∧ pyVersionParse (str "9.0.0") = some [9, 0, 0]
    ∧ pyVersionParse (str "10.0.0") = some [10, 0, 0]
    ∧ ¬ verGe [9, 0, 0] [10, 0, 0] := by
  decide

/-- Claim C6, amended: the package-index filter and the source-control
filter over parsed versions return canonical renders of a list sorted
descending by version precedence, and the two agree; the raw-name
releases accessor instead returns its surviving input names sorted
descending as strings (lexicographically), not by version precedence. -/
theorem c6_sorting_amended (releases : List Str) :
    (∃ vs : List Ver, Index.filter_releases releases = vs.map strVer
      ∧ List.Sorted verGe vs)
    ∧ GitIndex.filter_releases releases false = Index.filter_releases releases
    ∧ List.Sorted strGe (GitIndex.filter_releases releases true)
    ∧ ∀ s ∈ GitIndex.filter_releases releases true, s ∈ releases := by
  refine ⟨⟨List.insertionSort verGe
      (releases.filterMap (fun r => if preReleaseSearch r then none else pyVersionParse r)),
      rfl, List.sorted_insertionSort verGe _⟩, rfl, ?_, ?_⟩
  · unfold GitIndex.filter_releases
    simpa using List.sorted_insertionSort strGe
      (releases.filter (fun r => !preReleaseSearch r && (pyVersionParse r).isSome))
  · intro s hs
    unfold GitIndex.filter_releases at hs
    simp only [if_pos rfl] at hs
    have := (List.perm_insertionSort strGe
      (releases.filter (fun r => !preReleaseSearch r && (pyVersionParse r).isSome))).mem_iff.mp hs
    exact List.mem_of_mem_filter this

/-- Claim C7: the package lookup tries the mirrors in order, skipping to
the next on 404; any other non-success status raises immediately; and if
every mirror answered 404 it raises a lookup failure rather than
returning an empty candidate list. -/
theorem c7_mirror_fallback :
    (∀ (r : MirrorResponse) (rest : List MirrorResponse), r.status = 404 →
      Index.get_releases_for_package (r :: rest) = Index.get_releases_for_package rest)
    ∧ (∀ (r : MirrorResponse) (rest : List MirrorResponse),
        r.status ≠ 404 → 400 ≤ r.status →
        Index.get_releases_for_package (r :: rest) = .error (.httpError r.status))
    ∧ (∀ responses : List MirrorResponse, (∀ r ∈ responses, r.status = 404) →
        Index.get_releases_for_package responses = .error .lookupFailure) := by
  have hskip : ∀ (r : MirrorResponse) (rest : List MirrorResponse), r.status = 404 →
      Index.mirror_loop (r :: rest) = Index.mirror_loop rest := by
    intro r rest h
    simp only [Index.mirror_loop]
    rw [if_pos h]
  refine ⟨?_, ?_, ?_⟩
  · intro r rest h
    unfold Index.get_releases_for_package
    rw [hskip r rest h]
  · intro r rest hne hge
    have hml : Index.mirror_loop (r :: rest) = .error (.httpError r.status) := by
      simp only [Index.mirror_loop]
      rw [if_neg hne, if_pos hge]
    unfold Index.get_releases_for_package
    rw [hml]
  · intro responses
    induction responses with
    | nil => intro _; rfl
    | cons r rest ih =>
      intro hall
      unfold Index.get_releases_for_package at ih ⊢
      rw [hskip r rest (hall r (List.mem_cons_self r rest))]
      exact ih (fun x hx => hall x (List.mem_cons_of_mem r hx))

/-- Claim C7, witness: one 404 falls through to the next mirror, a 500
raises at once, and an all-404 run raises the lookup failure. -/
theorem c7_mirror_fallback_witness :
    Index.get_releases_for_package [⟨404, []⟩, ⟨500, []⟩]
      = Index.get_releases_for_package [⟨500, []⟩]
    ∧ Index.get_releases_for_package [⟨500, []⟩] = .error (.httpError 500)
    ∧ Index.get_releases_for_package [⟨404, []⟩] = .error .lookupFailure :=
  ⟨c7_mirror_fallback.1 ⟨404, []⟩ [⟨500, []⟩] rfl,
   c7_mirror_fallback.2.1 ⟨500, []⟩ [] (by decide) (by decide),
   c7_mirror_fallback.2.2 [⟨404, []⟩] (by decide)⟩

/-- The `happy_bunny` left fold of `wait_for_workflows` computes the
conjunction over the required workflows. -/
theorem happy_bunny_foldl (actions : List (Str × Str)) (ws : List Str) (b : Bool) :
    ws.foldl
      (fun happy_bunny w =>
        if pyDictGet actions w ≠ some (str "success") then false else happy_bunny) b
      = (b && ws.all (fun w => pyDictGet actions w == some (str "success"))) := by
  induction ws generalizing b with
  | nil => simp
  | cons w ws ih =>
    rw [List.foldl_cons, ih, List.all_cons]
    by_cases h : pyDictGet actions w = some (str "success")
    · simp [h]
    · simp [h]

/-- Claim C8: whenever every required check (matched case-insensitively)
has concluded and some required check concluded with a status other than
`"success"`, the gate reports failure, so the merge phase posts the
commit comment naming the configured workflows, deletes the branch and
issues no merge call (a comment-post failure changes nothing observable);
the merge call is issued exactly when the gate reported success, which —
whenever every required check has concluded — holds iff every required
check concluded `"success"`. -/
theorem c8_check_gate (workflows : List Str) (actions : List (Str × Str)) (cf : Bool)
    (hall : ∀ w ∈ workflows, (pyDictGet (loweredActions actions) (pyLower w)).isSome = true)
    (w0 : Str) (hw0 : w0 ∈ workflows)
    (hfail : pyDictGet (loweredActions actions) (pyLower w0) ≠ some (str "success")) :
    Git.wait_for_workflows workflows actions = some false
    ∧ (mergeAfterChecks workflows false cf).1
        = [.createCommitComment (mergeWorkflowComment workflows), .deleteBranch]
    ∧ GitCall.mergePullRequest ∉ (mergeAfterChecks workflows false cf).1
    ∧ (mergeAfterChecks workflows false cf).2 = false
    ∧ (∀ cf2, mergeAfterChecks workflows false cf2 = mergeAfterChecks workflows false cf)
    ∧ (∀ (b cf2 : Bool),
        GitCall.mergePullRequest ∈ (mergeAfterChecks workflows b cf2).1 ↔ b = true)
    ∧ (∀ actions2 : List (Str × Str),
        (∀ w ∈ workflows, (pyDictGet (loweredActions actions2) (pyLower w)).isSome = true) →
        (Git.wait_for_workflows workflows actions2 = some true ↔
          ∀ w ∈ workflows, pyDictGet (loweredActions actions2) (pyLower w)
            = some (str "success"))) := by
  have hwait : ∀ actions2 : List (Str × Str),
      (∀ w ∈ workflows, (pyDictGet (loweredActions actions2) (pyLower w)).isSome = true) →
      Git.wait_for_workflows workflows actions2
        = some (workflows.all
            (fun w => pyDictGet (loweredActions actions2) (pyLower w) == some (str "success"))) := by
    intro actions2 h2
    unfold Git.wait_for_workflows
    rw [if_pos]
    · rw [happy_bunny_foldl, Bool.true_and, List.all_map]
      rfl
    · rw [List.all_map]
      exact List.all_eq_true.mpr (fun w hw => h2 w hw)
  refine ⟨?_, rfl, by simp [mergeAfterChecks], rfl, fun _ => rfl, ?_, ?_⟩
  · rw [hwait actions hall]
    have : workflows.all
        (fun w => pyDictGet (loweredActions actions) (pyLower w) == some (str "success"))
        = false := by
      rcases Bool.eq_false_or_eq_true (workflows.all
        (fun w => pyDictGet (loweredActions actions) (pyLower w) == some (str "success"))) with
        h | h
      · exact absurd (beq_iff_eq.mp (List.all_eq_true.mp h w0 hw0)) hfail
      · exact h
    rw [this]
  · intro b cf2
    cases b <;> simp [mergeAfterChecks]
  · intro actions2 h2
    rw [hwait actions2 h2]
    constructor
    · intro h w hw
      have := List.all_eq_true.mp (Option.some.inj h) w hw
      exact beq_iff_eq.mp this
    · intro h
      have : workflows.all
          (fun w => pyDictGet (loweredActions actions2) (pyLower w) == some (str "success"))
          = true :=
        List.all_eq_true.mpr (fun w hw => beq_iff_eq.mpr (h w hw))
      rw [this]

/-- Claim C8, witness: required check `"CI"` concluding `"failure"`
makes the gate report failure, the merge phase comments and deletes the
branch, and no merge call appears. -/
theorem c8_check_gate_witness :
    Git.wait_for_workflows [str "CI"] [(str "CI", str "failure")] = some false
    ∧ (mergeAfterChecks [str "CI"] false false).1
        = [.createCommitComment (mergeWorkflowComment [str "CI"]), .deleteBranch]
    ∧ GitCall.mergePullRequest ∉ (mergeAfterChecks [str "CI"] false false).1
    ∧ (mergeAfterChecks [str "CI"] false false).2 = false :=
  have h := c8_check_gate [str "CI"] [(str "CI", str "failure")] false
    (by decide) (str "CI") (by decide) (by decide)
  ⟨h.1, h.2.1, h.2.2.1, h.2.2.2.1⟩

/-- Claim C9: the line
`git+https://github.com/acme/widget.git@v1.2.0#egg=widget` parses to a
SourceRef entry with organization `acme`, repository `widget` (the
`.git` suffix stripped) and pin `v1.2.0`, and `render_contents` on that
entry reproduces the identical input string. -/
theorem c9_sourceref_roundtrip :
    GitHubDependency.parse_line
        (str "git+https://github.com/acme/widget.git@v1.2.0#egg=widget")
      = some ⟨⟨str "widget", some (str "v1.2.0"), none, ⟨[], false, false, false, none⟩⟩,
          str "git+https", str "acme", str "widget"⟩
    ∧ GitHubDependency.render_contents
        ⟨⟨str "widget", some (str "v1.2.0"), none, ⟨[], false, false, false, none⟩⟩,
          str "git+https", str "acme", str "widget"⟩
      = str "git+https://github.com/acme/widget.git@v1.2.0#egg=widget" := by
  decide

/-- Claim C10, counterexample: `update_count` first feeds the contents
to the TOML parser, which raises on invalid TOML (here `"="`), so the
computation does not return 0 for arbitrary contents. -/
theorem c10_counterexample :
    LockFile.update_count ⟨str "poetry.lock", str "=", str ""⟩ = .raised
    ∧ LockFile.update_count ⟨str "poetry.lock", str "=", str ""⟩ ≠ .ok 0 := by
  decide

/-- Claim C10, amended: for every lock-file change object whose before
and after contents are accepted by the TOML parser, the derived change
computation yields the empty change set — `update_count` returns 0 and
`update_detail` returns the empty string — so such a change contributes
zero to the pull-request title's change count and an empty detail block;
contents the TOML parser rejects raise instead. -/
theorem c10_lockfile_amended (lf : LockFile)
    (h1 : tomllibLoads lf.current_contents = .ok ())
    (h2 : tomllibLoads lf.new_contents = .ok ()) :
    lf.update_count = .ok 0 ∧ lf.update_detail = .ok [] := by
  unfold LockFile.update_count LockFile.update_detail LockFile.calculate_changes
    LockFile.get_packages_from_contents
  rw [h1, h2]
  simp [calcChangesFrom]

/-- Claim C10, witness for the amended theorem at concrete contents. -/
theorem c10_lockfile_amended_witness :
    LockFile.update_count ⟨str "poetry.lock", str "", str "a = 1"⟩ = .ok 0
    ∧ LockFile.update_detail ⟨str "poetry.lock", str "", str "a = 1"⟩ = .ok [] :=
  c10_lockfile_amended ⟨str "poetry.lock", str "", str "a = 1"⟩ (by decide) (by decide)

/-- Concatenating the chunks of `pyReadlinesAux` recovers the input. -/
theorem pyReadlinesAux_join (s : Str) :
    ∀ acc : Str, (pyReadlinesAux s acc).flatten = acc.reverse ++ s := by
  induction s with
  | nil =>
    intro acc
    by_cases h : acc = []
    · simp [pyReadlinesAux, h]
    · simp [pyReadlinesAux, h]
  | cons c rest ih =>
    intro acc
    by_cases h : c = '\n'
    · subst h
      simp [pyReadlinesAux, ih]
    · simp [pyReadlinesAux, h, ih]

/-- When the contents end with a newline, every chunk produced by
`pyReadlinesAux` ends with a newline. -/
theorem pyReadlinesAux_endsNewline (s : Str) :
    ∀ acc : Str, s.getLast? = some '\n' → ∀ l ∈ pyReadlinesAux s acc, l.getLast? = some '\n' := by
  induction s with
  | nil => intro acc hs; simp at hs
  | cons c rest ih =>
    intro acc hs l hl
    by_cases h : c = '\n'
    · subst h
      simp only [pyReadlinesAux, if_pos rfl] at hl
      rcases List.mem_cons.mp hl with h1 | h1
      · subst h1
        simp
      · cases rest with
        | nil => simp [pyReadlinesAux] at h1
        | cons d ds =>
          rw [List.getLast?_cons_cons] at hs
          exact ih [] hs l h1
    · cases rest with
      | nil =>
        simp only [List.getLast?_singleton] at hs
        exact absurd (Option.some.inj hs) h
      | cons d ds =>
        rw [List.getLast?_cons_cons] at hs
        simp only [pyReadlinesAux, if_neg h] at hl
        exact ih (c :: acc) hs l hl

/-- A list ending in `c` is its `dropLast` with `c` appended. -/
theorem dropLast_append_of_getLast (l : Str) (c : Char) (h : l.getLast? = some c) :
    l.dropLast ++ [c] = l := by
  induction l with
  | nil => simp at h
  | cons a rest ih =>
    cases rest with
    | nil =>
      simp only [List.getLast?_singleton] at h
      rw [Option.some.inj h]
      rfl
    | cons b bs =>
      rw [List.getLast?_cons_cons] at h
      have h2 := ih h
      show a :: ((b :: bs).dropLast ++ [c]) = a :: b :: bs
      rw [h2]

/-- `joinSep` over a cons with a nonempty tail. -/
theorem joinSep_cons_of_ne (sep x : Str) (l : List Str) (h : l ≠ []) :
    joinSep sep (x :: l) = x ++ sep ++ joinSep sep l := by
  cases l with
  | nil => exact absurd rfl h
  | cons y r => rfl

/-- File-level round trip reduces to the per-line fixed-point property:
if every line (ending in a newline) re-renders to itself without the
newline, parsing succeeds and the export rebuilds the concatenation of
the lines. -/
theorem parse_export_lines (lines : List Str)
    (hnl : ∀ l ∈ lines, l.getLast? = some '\n')
    (hfix : ∀ l ∈ lines, (parseReqLine l).map entryExport = some l.dropLast) :
    ∃ es, lines.mapM parseReqLine = some es
      ∧ Requirements.export_requirements_txt es = lines.flatten := by
  induction lines with
  | nil => exact ⟨[], rfl, rfl⟩
  | cons l rest ih =>
    obtain ⟨es, hes, hexp⟩ := ih (fun x hx => hnl x (List.mem_cons_of_mem l hx))
      (fun x hx => hfix x (List.mem_cons_of_mem l hx))
    obtain ⟨e, he, hee⟩ := Option.map_eq_some'.mp (hfix l (List.mem_cons_self l rest))
    refine ⟨e :: es, ?_, ?_⟩
    · rw [List.mapM_cons, he, hes]
      rfl
    · unfold Requirements.export_requirements_txt
      rw [List.map_cons, List.cons_append,
        joinSep_cons_of_ne _ _ _ (by simp), hee]
      unfold Requirements.export_requirements_txt at hexp
      rw [hexp, List.flatten_cons]
      have hln : str "\n" = ['\n'] := by decide
      rw [hln]
      conv_rhs => rw [← dropLast_append_of_getLast l '\n' (hnl l (List.mem_cons_self l rest))]

/-- Claim C4, counterexample: the SourceRef line
`git+https://github.com/acme/widget.git@v1.2.0#egg=widget` parses, but
`GitHubDependency` does not override `export_requirements_txt`, so the
re-render is the inherited plain form `widget==v1.2.0` — parse composed
with render is not byte-identical for every entry kind even with no pin
changed. -/
theorem c4_counterexample :
    (Requirements.parse_requirements_txt
        (str "git+https://github.com/acme/widget.git@v1.2.0#egg=widget\n")).map
        Requirements.export_requirements_txt
      = some (str "widget==v1.2.0\n")
    ∧ str "widget==v1.2.0\n"
      ≠ str "git+https://github.com/acme/widget.git@v1.2.0#egg=widget\n" := by
  decide

/-- Claim C4, amended: for dependency-file contents ending in a newline
in which every line re-renders to itself — Opaque lines that equal their
whitespace-stripped text, Plain lines already in canonical rendered form
— parse composed with render reproduces the input byte-for-byte; in
general an Opaque entry is re-emitted as its stripped literal text and a
SourceRef entry is re-emitted in plain `name==pin` form by the inherited
renderer, so such lines round-trip only when already in that form. -/
theorem c4_roundtrip_amended (content : Str)
    (hend : content.getLast? = some '\n')
    (hfix : ∀ l ∈ pyReadlines content, (parseReqLine l).map entryExport = some l.dropLast) :
    ∃ es, Requirements.parse_requirements_txt content = some es
      ∧ Requirements.export_requirements_txt es = content := by
  obtain ⟨es, h1, h2⟩ := parse_export_lines (pyReadlines content)
    (pyReadlinesAux_endsNewline content [] hend) hfix
  refine ⟨es, h1, ?_⟩
  rw [h2]
  have := pyReadlinesAux_join content []
  simpa using this

/-- Claim C4, witness: a three-line file with an Opaque comment line, a
blank line and a canonical Plain line round-trips byte-for-byte. -/
theorem c4_roundtrip_amended_witness :
    ∃ es, Requirements.parse_requirements_txt (str "# hello\n\nfoo==1.0 # pipup:ignore\n")
      = some es
      ∧ Requirements.export_requirements_txt es
        = str "# hello\n\nfoo==1.0 # pipup:ignore\n" :=
  c4_roundtrip_amended (str "# hello\n\nfoo==1.0 # pipup:ignore\n") (by decide) (by decide)
